import Mathlib

/-!
Verification of the emergent-civilization simulation kernel.

The C++ sources are shallowly embedded here:
* `double` values are modelled as real numbers (`ℝ`);
* the agent table is a `List Agent`, indexed positionally as in the
  C++ `std::vector` (`agents_[i]`, with `Agent.id = i` after init);
* the pseudo-random draws consumed by `Kernel::initAgents` and
  `Kernel::buildSmallWorld` are abstracted into an oracle (`Draws`):
  every theorem quantifies over all oracles, hence covers the actual
  `std::mt19937_64` draw sequence of any seed.
-/

namespace CivSim

/-- `KernelConfig` from `Kernel.h` (fields as used by `Kernel.cpp`,
`main_kernel.cpp` and the FEATURES documentation). -/
structure KernelConfig where
  population : ℕ
  regions : ℕ
  avgConnections : ℕ
  rewireProb : ℝ
  stepSize : ℝ
  simFloor : ℝ
  seed : ℕ

/-- The agent record (`struct Agent`): identity, demography, lineage,
language, personality, beliefs `x`/`B`, multipliers, neighbor list.
Field inventory follows `serialization::writeAgent` and STATUS.md. -/
structure Agent where
  id : ℕ := 0
  region : ℕ := 0
  alive : Bool := true
  age : ℕ := 0
  female : Bool := false
  parent_a : ℤ := -1
  parent_b : ℤ := -1
  lineage_id : ℕ := 0
  primaryLang : ℕ := 0
  dialect : ℕ := 0
  fluency : ℝ := 0
  openness : ℝ := 0
  conformity : ℝ := 0
  assertiveness : ℝ := 0
  sociality : ℝ := 0
  x : Fin 4 → ℝ := fun _ => 0
  B : Fin 4 → ℝ := fun _ => 0
  B_norm_sq : ℝ := 0
  m_comm : ℝ := 0
  m_susceptibility : ℝ := 0
  m_mobility : ℝ := 0
  neighbors : List ℕ := []

/-- Default agent, used for out-of-range positional lookups
(the C++ never performs them; theorems carry the range hypotheses). -/
def defaultAgent : Agent := {}

instance : Inhabited Agent := ⟨defaultAgent⟩

/-- Modelled from the spec: `fastTanh` is declared in `Kernel.h`, which is
not among the provided sources.  The spec states that a fast rational
approximation `tanh(v) ≈ v·(27 + v²) / (27 + 9·v²)` may replace
`std::tanh` in the hot loop and that the final `B` must be clamped to
`[−1, 1]`; `Kernel.cpp` writes `B[k] = fastTanh(x[k])` with no separate
clamp, so the clamp lives inside `fastTanh`. -/
noncomputable def fastTanh (v : ℝ) : ℝ :=
  max (-1) (min 1 (v * (27 + v ^ 2) / (27 + 9 * v ^ 2)))

/-- `Kernel::languageQuality` (Kernel.cpp:120-127). -/
noncomputable def languageQuality (ai aj : Agent) : ℝ :=
  if ai.primaryLang = aj.primaryLang then
    min ai.fluency aj.fluency
  else
    0.25 * min ai.fluency aj.fluency

/-- Squared Euclidean norm of an agent's belief vector, the `ni`/`nj`
accumulators of `Kernel::similarityGate`. -/
noncomputable def bNormSq (a : Agent) : ℝ := ∑ k : Fin 4, a.B k * a.B k

/-- Belief dot product, the `dot` accumulator of `Kernel::similarityGate`. -/
noncomputable def bDot (ai aj : Agent) : ℝ := ∑ k : Fin 4, ai.B k * aj.B k

/-- `Kernel::similarityGate` (Kernel.cpp:129-144): cosine similarity
normalized to `[0,1]`, guarded against zero norms, floored at
`cfg.simFloor`. -/
noncomputable def similarityGate (cfg : KernelConfig) (ai aj : Agent) : ℝ :=
  max (0.5 * ((if 0 < bNormSq ai ∧ 0 < bNormSq aj then
      bDot ai aj / (Real.sqrt (bNormSq ai) * Real.sqrt (bNormSq aj))
    else 0) + 1)) cfg.simFloor

/-- The `weight` of the inner neighbor loop of `Kernel::updateBeliefs`
(Kernel.cpp:157-160). -/
noncomputable def pairWeight (cfg : KernelConfig) (ai aj : Agent) : ℝ :=
  cfg.stepSize * similarityGate cfg ai aj * languageQuality ai aj *
    (0.5 * (ai.m_comm + aj.m_comm)) * ai.m_susceptibility

/-- One neighbor's contribution to `acc[k]` in `Kernel::updateBeliefs`
(Kernel.cpp:154-165): `weight * fastTanh(B_j[k] - B_i[k])`. -/
noncomputable def neighborContrib (cfg : KernelConfig) (agents : List Agent)
    (ai : Agent) (jid : ℕ) (k : Fin 4) : ℝ :=
  let aj := agents.getD jid defaultAgent
  pairWeight cfg ai aj * fastTanh (aj.B k - ai.B k)

/-- The delta `dx[i]` of agent `i`, computed in the read-only pass of
`Kernel::updateBeliefs` (Kernel.cpp:150-169) from the pre-call state. -/
noncomputable def deltaOf (cfg : KernelConfig) (agents : List Agent)
    (i : ℕ) : Fin 4 → ℝ :=
  let ai := agents.getD i defaultAgent
  fun k => (ai.neighbors.map (fun jid => neighborContrib cfg agents ai jid k)).sum

/-- The write pass applied to one agent (Kernel.cpp:172-177):
`x[k] += dx[k]; B[k] = fastTanh(x[k])`. -/
noncomputable def applyOne (ai : Agent) (d : Fin 4 → ℝ) : Agent :=
  { ai with
    x := fun k => ai.x k + d k
    B := fun k => fastTanh (ai.x k + d k) }

/-- `Kernel::updateBeliefs` (Kernel.cpp:146-178): a delta buffer `dx`
(the inner `map` over `List.range`) is filled from the pre-call state,
then applied entry by entry. -/
noncomputable def updateBeliefs (cfg : KernelConfig) (agents : List Agent) :
    List Agent :=
  (List.range agents.length).map
    (fun i => applyOne (agents.getD i defaultAgent)
      (((List.range agents.length).map (deltaOf cfg agents)).getD i (fun _ => 0)))

/-! ### Spec-side definitions for claim C1 (refinement comparison) -/

/-- Spec wording: cosine of the two belief vectors. -/
noncomputable def specCos (ai aj : Agent) : ℝ :=
  bDot ai aj / (Real.sqrt (bNormSq ai) * Real.sqrt (bNormSq aj))

/-- Spec wording: `sim = 0.5·(1 + cos(B_i, B_j))`, lower-bounded by
`sim_floor`. -/
noncomputable def specSim (cfg : KernelConfig) (ai aj : Agent) : ℝ :=
  max (0.5 * (1 + specCos ai aj)) cfg.simFloor

/-- Spec wording: `lang_q = min(fluency_i, fluency_j)` for a shared
primary language, `0.25·min(fluency_i, fluency_j)` otherwise. -/
noncomputable def specLangQ (ai aj : Agent) : ℝ :=
  if ai.primaryLang = aj.primaryLang then min ai.fluency aj.fluency
  else 0.25 * min ai.fluency aj.fluency

/-- Spec wording:
`w = step_size · sim · lang_q · 0.5·(m_comm_i + m_comm_j) · m_susceptibility_i`. -/
noncomputable def specWeight (cfg : KernelConfig) (ai aj : Agent) : ℝ :=
  cfg.stepSize * specSim cfg ai aj * specLangQ ai aj *
    (0.5 * (ai.m_comm + aj.m_comm)) * ai.m_susceptibility

/-! ### Basic lemmas -/

theorem fastTanh_le_one (v : ℝ) : fastTanh v ≤ 1 := by
  unfold fastTanh
  have h1 : min 1 (v * (27 + v ^ 2) / (27 + 9 * v ^ 2)) ≤ 1 := min_le_left _ _
  have h2 : (-1 : ℝ) ≤ 1 := by norm_num
  exact max_le h2 h1

theorem neg_one_le_fastTanh (v : ℝ) : -1 ≤ fastTanh v := le_max_left _ _

/-- Under the code's guard (both belief norms positive) the source
similarity gate agrees with the spec formula. -/
theorem similarityGate_eq_specSim (cfg : KernelConfig) (ai aj : Agent)
    (hni : 0 < bNormSq ai) (hnj : 0 < bNormSq aj) :
    similarityGate cfg ai aj = specSim cfg ai aj := by
  unfold similarityGate specSim specCos
  rw [if_pos ⟨hni, hnj⟩]
  congr 1
  ring

/-- The source language-quality factor agrees with the spec formula. -/
theorem languageQuality_eq_specLangQ (ai aj : Agent) :
    languageQuality ai aj = specLangQ ai aj := rfl

/-- Claim C1: in pairwise mode, each neighbor `j` of agent `i` contributes
exactly `w · tanh(B_j[k] − B_i[k])` to `i`'s delta for every dimension
`k`, where `w = stepSize · sim · lang_q · 0.5·(m_comm_i + m_comm_j) ·
m_susceptibility_i`, `sim = max(0.5·(1 + cos(B_i,B_j)), simFloor)` and
`lang_q` is the (cross-)language fluency factor.  The hot-loop `tanh` is
the `fastTanh` the spec licenses.  The cosine requires both belief
norms to be positive (the code's guard). -/
theorem pairwise_contribution_matches_spec (cfg : KernelConfig)
    (agents : List Agent) (ai : Agent) (jid : ℕ) (k : Fin 4)
    (hni : 0 < bNormSq ai)
    (hnj : 0 < bNormSq (agents.getD jid defaultAgent)) :
    neighborContrib cfg agents ai jid k =
      specWeight cfg ai (agents.getD jid defaultAgent) *
        fastTanh ((agents.getD jid defaultAgent).B k - ai.B k) := by
  show pairWeight cfg ai (agents.getD jid defaultAgent) *
      fastTanh ((agents.getD jid defaultAgent).B k - ai.B k) = _
  unfold pairWeight
  rw [similarityGate_eq_specSim cfg ai _ hni hnj,
    languageQuality_eq_specLangQ]
  rfl

/-- Witness for C1 at a concrete input: two agents with orthogonal unit
belief vectors. -/
noncomputable def witnessCfg : KernelConfig :=
  { population := 2, regions := 1, avgConnections := 2,
    rewireProb := 0.05, stepSize := 0.15, simFloor := 0.05, seed := 42 }

noncomputable def witnessAgentA : Agent :=
  { id := 0, primaryLang := 1, fluency := 0.8, m_comm := 1,
    m_susceptibility := 0.7,
    B := fun _ => 1, neighbors := [1] }

noncomputable def witnessAgentB : Agent :=
  { id := 1, primaryLang := 1, fluency := 0.9, m_comm := 1,
    m_susceptibility := 0.7,
    B := fun _ => 0.5, neighbors := [0] }

theorem pairwise_contribution_matches_spec_witness :
    neighborContrib witnessCfg [witnessAgentA, witnessAgentB]
        witnessAgentA 1 0 =
      specWeight witnessCfg witnessAgentA
          ([witnessAgentA, witnessAgentB].getD 1 defaultAgent) *
        fastTanh (([witnessAgentA, witnessAgentB].getD 1 defaultAgent).B 0 -
          witnessAgentA.B 0) := by
  have h := pairwise_contribution_matches_spec witnessCfg
    [witnessAgentA, witnessAgentB] witnessAgentA 1 0
    (by
      simp only [bNormSq, witnessAgentA, Fin.sum_univ_four]
      norm_num)
    (by
      simp only [List.getD]
      simp only [bNormSq, witnessAgentB, Fin.sum_univ_four]
      norm_num)
  simpa using h

/-! ### Claim C2 -/

/-- Element access into a mapped range. -/
theorem getD_map_range {α : Type} (f : ℕ → α) (d : α) {n i : ℕ}
    (hi : i < n) : ((List.range n).map f).getD i d = f i := by
  rw [List.getD_eq_getElem?_getD, List.getElem?_map, List.getElem?_range hi]
  rfl

/-- Claim C2: after every belief update (each call to
`Kernel::updateBeliefs`, hence each `Kernel::step`), every agent's
belief `B[k]` lies in `[-1, 1]`, also with the fast rational `tanh`
approximation in place of `std::tanh` (the clamp inside `fastTanh`
guarantees the bound; values are modelled as real numbers, so they are
finite by construction). -/
theorem beliefs_in_unit_interval_after_update (cfg : KernelConfig)
    (agents : List Agent) (i : ℕ) (k : Fin 4) (hi : i < agents.length) :
    -1 ≤ ((updateBeliefs cfg agents).getD i defaultAgent).B k ∧
      ((updateBeliefs cfg agents).getD i defaultAgent).B k ≤ 1 := by
  unfold updateBeliefs
  rw [getD_map_range _ _ hi]
  exact ⟨neg_one_le_fastTanh _, fastTanh_le_one _⟩

theorem beliefs_in_unit_interval_after_update_witness :
    -1 ≤ ((updateBeliefs witnessCfg [witnessAgentA]).getD 0 defaultAgent).B 0 ∧
      ((updateBeliefs witnessCfg [witnessAgentA]).getD 0 defaultAgent).B 0 ≤ 1 :=
  beliefs_in_unit_interval_after_update witnessCfg [witnessAgentA] 0 0
    (by simp)

/-! ### Claim C3: two-phase reference semantics and schedule independence -/

/-- Reference semantics, delta pass: workers process the indices in
`order`, each writing the delta of its agent — computed exclusively
from the pre-call state `agents` — into a private slot of the buffer. -/
noncomputable def schedDeltas (cfg : KernelConfig) (agents : List Agent)
    (order : List ℕ) : ℕ → Fin 4 → ℝ :=
  order.foldl (fun buf i => Function.update buf i (deltaOf cfg agents i))
    (fun _ _ => 0)

/-- Reference semantics, write pass: workers process the indices in
`order`, each overwriting its agent with `x += Δx; B = tanh(x)`. -/
noncomputable def schedApply (agents : List Agent) (buf : ℕ → Fin 4 → ℝ)
    (order : List ℕ) : List Agent :=
  order.foldl
    (fun res i => res.set i (applyOne (agents.getD i defaultAgent) (buf i)))
    agents

/-- Two-phase reference semantics with explicit schedules for both
passes. -/
noncomputable def schedUpdate (cfg : KernelConfig) (agents : List Agent)
    (order1 order2 : List ℕ) : List Agent :=
  schedApply agents (schedDeltas cfg agents order1) order2

theorem schedDeltas_eval (cfg : KernelConfig) (agents : List Agent) :
    ∀ (order : List ℕ) (buf : ℕ → Fin 4 → ℝ) (i : ℕ),
      (order.foldl
          (fun b j => Function.update b j (deltaOf cfg agents j)) buf) i =
        if i ∈ order then deltaOf cfg agents i else buf i := by
  intro order
  induction order with
  | nil => intro buf i; simp
  | cons j rest ih =>
    intro buf i
    rw [List.foldl_cons, ih]
    by_cases hir : i ∈ rest
    · simp [hir]
    · by_cases hij : i = j
      · subst hij; simp [hir]
      · simp [hir, hij, Function.update_noteq hij]

theorem schedApply_length (agents : List Agent) (buf : ℕ → Fin 4 → ℝ) :
    ∀ (order : List ℕ) (acc : List Agent),
      (order.foldl
          (fun res i =>
            res.set i (applyOne (agents.getD i defaultAgent) (buf i)))
          acc).length = acc.length := by
  intro order
  induction order with
  | nil => intro acc; rfl
  | cons j rest ih =>
    intro acc
    rw [List.foldl_cons, ih, List.length_set]

theorem schedApply_eval (agents : List Agent) (buf : ℕ → Fin 4 → ℝ) :
    ∀ (order : List ℕ) (acc : List Agent) (i : ℕ), i < acc.length →
      (order.foldl
          (fun res j =>
            res.set j (applyOne (agents.getD j defaultAgent) (buf j)))
          acc).getD i defaultAgent =
        if i ∈ order then applyOne (agents.getD i defaultAgent) (buf i)
        else acc.getD i defaultAgent := by
  intro order
  induction order with
  | nil => intro acc i _; simp
  | cons j rest ih =>
    intro acc i hi
    rw [List.foldl_cons,
      ih (acc.set j (applyOne (agents.getD j defaultAgent) (buf j))) i
        (by rwa [List.length_set])]
    by_cases hir : i ∈ rest
    · simp [hir]
    · by_cases hij : i = j
      · subst hij
        rw [if_neg hir, if_pos (List.mem_cons_self i rest),
          List.getD_eq_getElem?_getD, List.getElem?_set_self hi]
        rfl
      · rw [if_neg hir, if_neg (by simp [hij, hir]),
          List.getD_eq_getElem?_getD, List.getElem?_set_ne (Ne.symm hij),
          ← List.getD_eq_getElem?_getD]

/-- Two lists of equal length whose positional reads all agree are
equal. -/
theorem list_ext_getD {α : Type} (d : α) :
    ∀ {l₁ l₂ : List α}, l₁.length = l₂.length →
      (∀ i, i < l₁.length → l₁.getD i d = l₂.getD i d) → l₁ = l₂ := by
  intro l₁
  induction l₁ with
  | nil =>
    intro l₂ hlen _
    exact (List.eq_nil_of_length_eq_zero hlen.symm).symm
  | cons a t ih =>
    intro l₂ hlen hval
    cases l₂ with
    | nil => simp at hlen
    | cons b t₂ =>
      have h0 : a = b := by simpa [List.getD] using hval 0 (by simp)
      have hlen' : t.length = t₂.length := by simpa using hlen
      have htail : t = t₂ := ih hlen' (fun i hi => by
        simpa [List.getD] using hval (i + 1) (by simpa using Nat.succ_lt_succ hi))
      rw [h0, htail]

/-- Claim C3: `Kernel::updateBeliefs` is equivalent to the two-phase
reference semantics — all deltas are computed from the pre-call state
only, then applied — for every schedule of the delta pass and every
schedule of the write pass that cover the agent indices; consequently
the post-call state does not depend on processing order. -/
theorem updateBeliefs_schedule_independent (cfg : KernelConfig)
    (agents : List Agent) (order1 order2 : List ℕ)
    (h1 : ∀ i, i < agents.length → i ∈ order1)
    (h2 : ∀ i, i < agents.length → i ∈ order2) :
    schedUpdate cfg agents order1 order2 = updateBeliefs cfg agents := by
  apply list_ext_getD defaultAgent
  · unfold schedUpdate schedApply updateBeliefs
    rw [schedApply_length, List.length_map, List.length_range]
  · intro i hi
    unfold schedUpdate schedApply at hi ⊢
    rw [schedApply_length] at hi
    rw [schedApply_eval agents _ order2 agents i hi, if_pos (h2 i hi)]
    unfold schedDeltas
    rw [schedDeltas_eval, if_pos (h1 i hi)]
    unfold updateBeliefs
    rw [getD_map_range _ _ hi, getD_map_range _ _ hi]

theorem updateBeliefs_schedule_independent_witness :
    schedUpdate witnessCfg [witnessAgentA, witnessAgentB] [1, 0, 1] [0, 1] =
      updateBeliefs witnessCfg [witnessAgentA, witnessAgentB] :=
  updateBeliefs_schedule_independent witnessCfg [witnessAgentA, witnessAgentB]
    [1, 0, 1] [0, 1] (by decide) (by decide)

/-! ### Kernel construction (`Kernel::reset`, `initAgents`, `buildSmallWorld`)

The `std::mt19937_64` draws consumed during construction are abstracted
into an oracle of per-site draws.  Every theorem below quantifies over
all oracles, so it holds in particular for the draw sequence the actual
Mersenne twister produces from any seed. -/

/-- The pseudo-random draws consumed by `Kernel::initAgents` and
`Kernel::buildSmallWorld`, indexed by their draw site: per agent `i`
a region, a language, a fluency uniform, four trait normals and four
belief normals; per rewiring site `(i, d)` the Bernoulli outcome of
`uniDist(rng) < rewireProb` and the node the retry loop settles on. -/
structure Draws where
  regionDraw : ℕ → ℕ
  langDraw : ℕ → ℕ
  fluDraw : ℕ → ℝ
  traitDraw : ℕ → Fin 4 → ℝ
  xDraw : ℕ → Fin 4 → ℝ
  rewireDraw : ℕ → ℕ → Bool
  targetDraw : ℕ → ℕ → ℕ

/-- `std::clamp(v, lo, hi)`. -/
noncomputable def cppClamp (v lo hi : ℝ) : ℝ := max lo (min v hi)

/-- One iteration of the `Kernel::initAgents` loop (Kernel.cpp:30-57). -/
noncomputable def initAgent (cfg : KernelConfig) (g : Draws) (i : ℕ) : Agent :=
  let o := cppClamp (g.traitDraw i 0) 0 1
  let c := cppClamp (g.traitDraw i 1) 0 1
  let a := cppClamp (g.traitDraw i 2) 0 1
  let s := cppClamp (g.traitDraw i 3) 0 1
  { id := i
    region := g.regionDraw i % cfg.regions
    primaryLang := g.langDraw i % 4
    fluency := cppClamp (0.7 + 0.3 * (g.fluDraw i - 0.5)) 0.3 1
    openness := o
    conformity := c
    assertiveness := a
    sociality := s
    x := fun k => g.xDraw i k
    B := fun k => fastTanh (g.xDraw i k)
    m_comm := 1
    m_susceptibility := cppClamp (0.7 + 0.6 * (o - 0.5)) 0.4 1.2
    m_mobility := 0.8 + 0.4 * s
    neighbors := [] }

/-- `Kernel::initAgents` (Kernel.cpp:19-58): the agent table before
graph construction. -/
noncomputable def initAgents (cfg : KernelConfig) (g : Draws) : List Agent :=
  (List.range cfg.population).map (initAgent cfg g)

/-- The region index built by `Kernel::initAgents`
(`regionIndex_[a.region].push_back(i)`, in agent order). -/
noncomputable def regionIndexOf (cfg : KernelConfig) (g : Draws) :
    List (List ℕ) :=
  (List.range cfg.regions).map
    (fun r => (List.range cfg.population).filter
      (fun i => g.regionDraw i % cfg.regions = r))

/-- `agents_[i].neighbors.push_back(j)`: append `j` to row `i` of the
adjacency. -/
def pushNbr (i j : ℕ) (A : ℕ → List ℕ) : ℕ → List ℕ :=
  Function.update A i (A i ++ [j])

/-- Insert the undirected edge `(i, j)`: both push-backs of the C++
(`agents_[i]` gets `j`, then `agents_[j]` gets `i`). -/
def addEdge (i j : ℕ) (A : ℕ → List ℕ) : ℕ → List ℕ :=
  pushNbr j i (pushNbr i j A)

/-- `erase(remove(...))`: drop every occurrence of `j` from row `i`. -/
def eraseNbr (i j : ℕ) (A : ℕ → List ℕ) : ℕ → List ℕ :=
  Function.update A i ((A i).filter (fun z => z ≠ j))

/-- Remove the undirected edge `(i, j)`: both erase-remove idioms of
the C++ rewiring step. -/
def removeEdge (i j : ℕ) (A : ℕ → List ℕ) : ℕ → List ℕ :=
  eraseNbr j i (eraseNbr i j A)

/-- `if (K % 2) ++K;` — the even connection count (Kernel.cpp:62-63). -/
def evenK (K : ℕ) : ℕ := if K % 2 = 1 then K + 1 else K

/-- The ring-lattice phase of `Kernel::buildSmallWorld`
(Kernel.cpp:69-76). -/
def ringLattice (N hK : ℕ) : ℕ → List ℕ :=
  (List.range N).foldl
    (fun A i =>
      (List.range' 1 hK).foldl (fun A d => addEdge i ((i + d) % N) A) A)
    (fun _ => [])

/-- The rewiring phase of `Kernel::buildSmallWorld` (Kernel.cpp:78-105):
with probability `rewireProb` (outcome `rw i d`), the lattice edge
`(i, (i+d) % N)` is replaced by `(i, newJ)` where `newJ` is the node
the do-while loop settles on (`tg i d`, always `< N` in the C++; the
model reduces it mod `N`). -/
def rewirePhase (N hK : ℕ) (rw : ℕ → ℕ → Bool) (tg : ℕ → ℕ → ℕ)
    (A0 : ℕ → List ℕ) : ℕ → List ℕ :=
  (List.range N).foldl
    (fun A i =>
      (List.range' 1 hK).foldl
        (fun A d =>
          if rw i d then
            addEdge i (tg i d % N) (removeEdge i ((i + d) % N) A)
          else A)
        A)
    A0

/-- The dedup/self-loop cleanup of `Kernel::buildSmallWorld`
(Kernel.cpp:107-117): keep the first occurrence of each neighbor id
distinct from the agent's own id. -/
def dedupRow (selfId : ℕ) (l : List ℕ) : List ℕ :=
  l.foldl
    (fun acc nid => if nid ≠ selfId ∧ nid ∉ acc then acc ++ [nid] else acc)
    []

/-- `Kernel::buildSmallWorld` (Kernel.cpp:60-118), as the final
adjacency row of each agent. -/
def buildSmallWorld (N K : ℕ) (rw : ℕ → ℕ → Bool) (tg : ℕ → ℕ → ℕ)
    (i : ℕ) : List ℕ :=
  dedupRow i
    (rewirePhase N (evenK K / 2) rw tg (ringLattice N (evenK K / 2)) i)

/-- The kernel state: configuration, generation counter, agent table,
region index. -/
structure KernelState where
  cfg : KernelConfig
  generation : ℕ
  agents : List Agent
  regionIndex : List (List ℕ)

/-- `Kernel::Kernel` / `Kernel::reset` (Kernel.cpp:7-17): reseed, init
agents, build the small-world graph. -/
noncomputable def mkKernel (cfg : KernelConfig) (g : Draws) : KernelState :=
  { cfg := cfg
    generation := 0
    agents := (initAgents cfg g).map
      (fun a => { a with
        neighbors :=
          buildSmallWorld cfg.population cfg.avgConnections
            g.rewireDraw g.targetDraw a.id })
    regionIndex := regionIndexOf cfg g }

/-- `Kernel::step` (Kernel.cpp:180-183). -/
noncomputable def step (k : KernelState) : KernelState :=
  { k with
    agents := updateBeliefs k.cfg k.agents
    generation := k.generation + 1 }

/-- `Kernel::stepN` (Kernel.cpp:185-189). -/
noncomputable def stepN (k : KernelState) : ℕ → KernelState
  | 0 => k
  | n + 1 => step (stepN k n)

/-! ### Claim C4: determinism under identical configuration -/

/-- Claim C4: two kernels constructed from identical configurations
(seed included) and stepped the same number of times have identical
trajectories — the full states, in particular every agent's `x` and
`B`, coincide after any number of steps.  The function `mt` interprets
the seeded `std::mt19937_64` draw stream; both kernels draw through it
from the same seed. -/
theorem identical_config_identical_trajectory (mt : ℕ → Draws)
    (cfg1 cfg2 : KernelConfig) (h : cfg1 = cfg2) (N : ℕ) :
    stepN (mkKernel cfg1 (mt cfg1.seed)) N =
      stepN (mkKernel cfg2 (mt cfg2.seed)) N := by
  subst h
  rfl

/-- A concrete draw oracle for witnesses. -/
noncomputable def trivialDraws : Draws :=
  { regionDraw := fun _ => 0
    langDraw := fun _ => 0
    fluDraw := fun _ => 0
    traitDraw := fun _ _ => 0
    xDraw := fun _ _ => 0
    rewireDraw := fun _ _ => false
    targetDraw := fun _ _ => 0 }

theorem identical_config_identical_trajectory_witness :
    stepN (mkKernel witnessCfg ((fun _ => trivialDraws) witnessCfg.seed)) 3 =
      stepN (mkKernel witnessCfg ((fun _ => trivialDraws) witnessCfg.seed)) 3 :=
  identical_config_identical_trajectory (fun _ => trivialDraws)
    witnessCfg witnessCfg rfl 3

/-! ### Claim C5: the neighbor relation is an undirected simple graph

Through the ring-lattice and rewiring phases every mutation touches
both endpoint rows at once, so the occurrence counts stay symmetric;
the final cleanup removes duplicates and self-loops. -/

/-- Symmetric occurrence counts: `j` occurs in row `i` as often as `i`
occurs in row `j`. -/
def SymCnt (A : ℕ → List ℕ) : Prop :=
  ∀ i j, (A i).count j = (A j).count i

theorem count_addEdge (a b i j : ℕ) (A : ℕ → List ℕ) :
    ((addEdge a b A) i).count j =
      (A i).count j + (if i = a ∧ j = b then 1 else 0) +
        (if i = b ∧ j = a then 1 else 0) := by
  unfold addEdge pushNbr
  rcases eq_or_ne i b with hib | hib <;> rcases eq_or_ne i a with hia | hia <;>
    rcases eq_or_ne j b with hjb | hjb <;> rcases eq_or_ne j a with hja | hja <;>
      subst_vars <;>
      simp_all [Function.update_apply, List.count_append, List.count_cons,
        List.count_nil]

theorem count_filter_ne (l : List ℕ) (b j : ℕ) :
    (l.filter (fun z => z ≠ b)).count j = if j = b then 0 else l.count j := by
  induction l with
  | nil => simp
  | cons x t ih =>
    by_cases hxb : x = b <;>
      simp_all [List.filter_cons, List.count_cons] <;>
      split_ifs <;> simp_all

theorem count_removeEdge (a b i j : ℕ) (A : ℕ → List ℕ) :
    ((removeEdge a b A) i).count j =
      if (i = a ∧ j = b) ∨ (i = b ∧ j = a) then 0 else (A i).count j := by
  unfold removeEdge eraseNbr
  rcases eq_or_ne i b with hib | hib <;> rcases eq_or_ne i a with hia | hia <;>
    rcases eq_or_ne j b with hjb | hjb <;> rcases eq_or_ne j a with hja | hja <;>
      subst_vars <;>
      simp_all [Function.update_apply, count_filter_ne] <;>
      exact List.count_eq_zero_of_not_mem (by simp)

theorem symCnt_addEdge {A : ℕ → List ℕ} (h : SymCnt A) (a b : ℕ) :
    SymCnt (addEdge a b A) := by
  intro i j
  rw [count_addEdge, count_addEdge, h i j,
    if_congr (and_comm (a := i = a) (b := j = b)) rfl rfl,
    if_congr (and_comm (a := i = b) (b := j = a)) rfl rfl]
  omega

theorem symCnt_removeEdge {A : ℕ → List ℕ} (h : SymCnt A) (a b : ℕ) :
    SymCnt (removeEdge a b A) := by
  intro i j
  rw [count_removeEdge, count_removeEdge, h i j]
  by_cases hc : (i = a ∧ j = b) ∨ (i = b ∧ j = a)
  · rw [if_pos hc, if_pos (by tauto)]
  · rw [if_neg hc, if_neg (by tauto)]

theorem foldl_preserve {α β : Type} (P : α → Prop) (f : α → β → α)
    (hf : ∀ a b, P a → P (f a b)) :
    ∀ (l : List β) (a : α), P a → P (l.foldl f a) := by
  intro l
  induction l with
  | nil => intro a ha; exact ha
  | cons x t ih => intro a ha; exact ih _ (hf a x ha)

theorem symCnt_ringLattice (N hK : ℕ) : SymCnt (ringLattice N hK) := by
  unfold ringLattice
  apply foldl_preserve SymCnt _ _ (List.range N)
  · intro i j; rfl
  · intro A i hA
    apply foldl_preserve SymCnt _ _ (List.range' 1 hK) A hA
    intro A d hA
    exact symCnt_addEdge hA i ((i + d) % N)

theorem symCnt_rewirePhase (N hK : ℕ) (rw : ℕ → ℕ → Bool)
    (tg : ℕ → ℕ → ℕ) {A0 : ℕ → List ℕ} (h0 : SymCnt A0) :
    SymCnt (rewirePhase N hK rw tg A0) := by
  unfold rewirePhase
  apply foldl_preserve SymCnt _ _ (List.range N) A0 h0
  intro A i hA
  apply foldl_preserve SymCnt _ _ (List.range' 1 hK) A hA
  intro A d hA
  by_cases hrw : rw i d
  · rw [if_pos hrw]
    exact symCnt_addEdge (symCnt_removeEdge hA i ((i + d) % N)) i (tg i d % N)
  · rwa [if_neg hrw]

theorem mem_dedupRow_aux (s : ℕ) :
    ∀ (l acc : List ℕ) (x : ℕ),
      x ∈ l.foldl
          (fun acc nid =>
            if nid ≠ s ∧ nid ∉ acc then acc ++ [nid] else acc) acc ↔
        x ∈ acc ∨ (x ∈ l ∧ x ≠ s) := by
  intro l
  induction l with
  | nil => intro acc x; simp
  | cons nid t ih =>
    intro acc x
    rw [List.foldl_cons]
    by_cases hcond : nid ≠ s ∧ nid ∉ acc
    · rw [if_pos hcond, ih]
      have hns : nid ≠ s := hcond.1
      simp only [List.mem_append, List.mem_cons, List.not_mem_nil, or_false]
      constructor
      · rintro (⟨hx | hx⟩ | ⟨hx, hxs⟩)
        · exact Or.inl hx
        · exact Or.inr ⟨Or.inl hx, by rw [hx]; exact hns⟩
        · exact Or.inr ⟨Or.inr hx, hxs⟩
      · rintro (hx | ⟨hx | hx, hxs⟩)
        · exact Or.inl (Or.inl hx)
        · exact Or.inl (Or.inr hx)
        · exact Or.inr ⟨hx, hxs⟩
    · rw [if_neg hcond, ih]
      have hd : nid = s ∨ nid ∈ acc := by
        rcases not_and_or.mp hcond with hns | hacc
        · exact Or.inl (not_not.mp hns)
        · exact Or.inr (not_not.mp hacc)
      simp only [List.mem_cons]
      constructor
      · rintro (hx | ⟨hx, hxs⟩)
        · exact Or.inl hx
        · exact Or.inr ⟨Or.inr hx, hxs⟩
      · rintro (hx | ⟨hx | hx, hxs⟩)
        · exact Or.inl hx
        · subst hx
          rcases hd with h1 | h1
          · exact absurd h1 hxs
          · exact Or.inl h1
        · exact Or.inr ⟨hx, hxs⟩

theorem mem_dedupRow (s : ℕ) (l : List ℕ) (x : ℕ) :
    x ∈ dedupRow s l ↔ x ∈ l ∧ x ≠ s := by
  unfold dedupRow
  rw [mem_dedupRow_aux]
  simp

theorem dedupRow_nodup_aux (s : ℕ) :
    ∀ (l acc : List ℕ), acc.Nodup →
      (l.foldl
          (fun acc nid =>
            if nid ≠ s ∧ nid ∉ acc then acc ++ [nid] else acc) acc).Nodup := by
  intro l
  induction l with
  | nil => intro acc h; exact h
  | cons nid t ih =>
    intro acc h
    rw [List.foldl_cons]
    by_cases hcond : nid ≠ s ∧ nid ∉ acc
    · rw [if_pos hcond]
      apply ih
      simp [List.nodup_append, h, hcond.2]
    · rw [if_neg hcond]
      exact ih acc h

theorem dedupRow_nodup (s : ℕ) (l : List ℕ) : (dedupRow s l).Nodup :=
  dedupRow_nodup_aux s l [] List.nodup_nil

theorem dedupRow_not_self (s : ℕ) (l : List ℕ) : s ∉ dedupRow s l := by
  rw [mem_dedupRow]
  rintro ⟨_, h⟩
  exact h rfl

/-- Row `i` of the adjacency just before cleanup. -/
def preCleanAdj (N K : ℕ) (rw : ℕ → ℕ → Bool) (tg : ℕ → ℕ → ℕ) :
    ℕ → List ℕ :=
  rewirePhase N (evenK K / 2) rw tg (ringLattice N (evenK K / 2))

theorem buildSmallWorld_eq_dedup (N K : ℕ) (rw : ℕ → ℕ → Bool)
    (tg : ℕ → ℕ → ℕ) (i : ℕ) :
    buildSmallWorld N K rw tg i = dedupRow i (preCleanAdj N K rw tg i) := rfl

theorem symCnt_preCleanAdj (N K : ℕ) (rw : ℕ → ℕ → Bool)
    (tg : ℕ → ℕ → ℕ) : SymCnt (preCleanAdj N K rw tg) :=
  symCnt_rewirePhase _ _ _ _ (symCnt_ringLattice _ _)

theorem mem_buildSmallWorld_symm (N K : ℕ) (rw : ℕ → ℕ → Bool)
    (tg : ℕ → ℕ → ℕ) (i j : ℕ) :
    j ∈ buildSmallWorld N K rw tg i ↔ i ∈ buildSmallWorld N K rw tg j := by
  rw [buildSmallWorld_eq_dedup, buildSmallWorld_eq_dedup,
    mem_dedupRow, mem_dedupRow]
  have hsym := symCnt_preCleanAdj N K rw tg i j
  constructor
  · rintro ⟨hmem, hne⟩
    refine ⟨?_, hne.symm⟩
    have : 0 < (preCleanAdj N K rw tg i).count j :=
      List.count_pos_iff.mpr hmem
    rw [hsym] at this
    exact List.count_pos_iff.mp this
  · rintro ⟨hmem, hne⟩
    refine ⟨?_, hne.symm⟩
    have : 0 < (preCleanAdj N K rw tg j).count i :=
      List.count_pos_iff.mpr hmem
    rw [← hsym] at this
    exact List.count_pos_iff.mp this

/-! Lifting the graph facts to the kernel state after `n` ticks. -/

theorem mkKernel_agents_length (cfg : KernelConfig) (g : Draws) :
    (mkKernel cfg g).agents.length = cfg.population := by
  unfold mkKernel initAgents
  rw [List.length_map, List.length_map, List.length_range]

theorem mkKernel_agent_neighbors (cfg : KernelConfig) (g : Draws) {i : ℕ}
    (hi : i < cfg.population) :
    ((mkKernel cfg g).agents.getD i defaultAgent).neighbors =
      buildSmallWorld cfg.population cfg.avgConnections
        g.rewireDraw g.targetDraw i := by
  unfold mkKernel initAgents
  rw [List.map_map, getD_map_range _ _ hi]
  rfl

theorem updateBeliefs_length (cfg : KernelConfig) (agents : List Agent) :
    (updateBeliefs cfg agents).length = agents.length := by
  unfold updateBeliefs
  rw [List.length_map, List.length_range]

theorem updateBeliefs_neighbors (cfg : KernelConfig) (agents : List Agent)
    {i : ℕ} (hi : i < agents.length) :
    ((updateBeliefs cfg agents).getD i defaultAgent).neighbors =
      (agents.getD i defaultAgent).neighbors := by
  unfold updateBeliefs
  rw [getD_map_range _ _ hi]
  rfl

theorem stepN_agents_length (k : KernelState) (n : ℕ) :
    (stepN k n).agents.length = k.agents.length := by
  induction n with
  | zero => rfl
  | succ n ih =>
    show (updateBeliefs _ _).length = _
    rw [updateBeliefs_length, ih]

theorem stepN_neighbors (k : KernelState) (n : ℕ) {i : ℕ}
    (hi : i < k.agents.length) :
    ((stepN k n).agents.getD i defaultAgent).neighbors =
      (k.agents.getD i defaultAgent).neighbors := by
  induction n with
  | zero => rfl
  | succ n ih =>
    show ((updateBeliefs _ (stepN k n).agents).getD i
        defaultAgent).neighbors = _
    rw [updateBeliefs_neighbors _ _ (by rwa [stepN_agents_length]), ih]

/-- Claim C5: after graph construction (`reset`) and after every
subsequent tick, the neighbor relation is an undirected simple graph:
membership is symmetric, no agent lists its own id, and no list
contains a duplicate. -/
theorem neighbor_graph_undirected_simple (cfg : KernelConfig) (g : Draws)
    (n i j : ℕ) (hi : i < cfg.population) (hj : j < cfg.population) :
    ((stepN (mkKernel cfg g) n).agents.getD i defaultAgent).neighbors.Nodup ∧
      i ∉ ((stepN (mkKernel cfg g) n).agents.getD i defaultAgent).neighbors ∧
      (j ∈ ((stepN (mkKernel cfg g) n).agents.getD i defaultAgent).neighbors ↔
        i ∈ ((stepN (mkKernel cfg g) n).agents.getD j
          defaultAgent).neighbors) := by
  have hlen := mkKernel_agents_length cfg g
  rw [stepN_neighbors _ _ (by rwa [hlen]),
    stepN_neighbors _ _ (by rwa [hlen]),
    mkKernel_agent_neighbors cfg g hi, mkKernel_agent_neighbors cfg g hj]
  refine ⟨?_, ?_, ?_⟩
  · rw [buildSmallWorld_eq_dedup]
    exact dedupRow_nodup _ _
  · rw [buildSmallWorld_eq_dedup]
    exact dedupRow_not_self _ _
  · exact mem_buildSmallWorld_symm _ _ _ _ i j

theorem neighbor_graph_undirected_simple_witness :
    ((stepN (mkKernel witnessCfg trivialDraws) 2).agents.getD 0
        defaultAgent).neighbors.Nodup ∧
      0 ∉ ((stepN (mkKernel witnessCfg trivialDraws) 2).agents.getD 0
        defaultAgent).neighbors ∧
      (1 ∈ ((stepN (mkKernel witnessCfg trivialDraws) 2).agents.getD 0
          defaultAgent).neighbors ↔
        0 ∈ ((stepN (mkKernel witnessCfg trivialDraws) 2).agents.getD 1
          defaultAgent).neighbors) :=
  neighbor_graph_undirected_simple witnessCfg trivialDraws 2 0 1
    (by norm_num [witnessCfg]) (by norm_num [witnessCfg])

/-! ### Checkpoint serialization (`core/src/utils/Serialization.cpp`)

`Serialization.cpp` compiles against the core `Kernel.h` (absent from
the provided sources); `CoreKernel` records exactly the state that
`saveCheckpoint`/`loadCheckpoint` access through the kernel API:
`generation()`, `agents()`, `regionIndex()`, `economy().getRegion(r)`
and `economy().getAgentEconomy(i)`.  The binary file is modelled as the
structured sequence of records the two functions write and read. -/

/-- The per-region economy record serialized by `saveCheckpoint`
(Serialization.cpp:121-134). -/
structure RegionEcon where
  development : ℝ := 0
  welfare : ℝ := 0
  inequality : ℝ := 0
  hardship : ℝ := 0
  efficiency : ℝ := 0
  system_stability : ℝ := 0
  economic_system : String := "mixed"
  production : Fin 5 → ℝ := fun _ => 0
  prices : Fin 5 → ℝ := fun _ => 0

/-- The per-agent economy record serialized by `saveCheckpoint`
(Serialization.cpp:137-144). -/
structure AgentEcon where
  wealth : ℝ := 0
  income : ℝ := 0
  productivity : ℝ := 0
  sector : ℕ := 0
  hardship : ℝ := 0

/-- The core kernel state visible to the serialization layer. -/
structure CoreKernel where
  generation : ℕ
  agents : List Agent
  regionIndex : List (List ℕ)
  regionEcon : List RegionEcon
  agentEcon : List AgentEcon

/-- `serialization::CHECKPOINT_MAGIC` (Serialization.h:18). -/
def CHECKPOINT_MAGIC : ℕ := 0x45435356

/-- `serialization::CHECKPOINT_VERSION` (Serialization.h:19). -/
def CHECKPOINT_VERSION : ℕ := 1

/-- `serialization::CheckpointHeader` (Serialization.h:22-30). -/
structure CheckpointHeader where
  magic : ℕ := CHECKPOINT_MAGIC
  version : ℕ := CHECKPOINT_VERSION
  generation : ℕ := 0
  num_agents : ℕ := 0
  num_regions : ℕ := 0
  seed : ℕ := 0
  timestamp : ℕ := 0

/-- A checkpoint file: the header followed by the record sequences
written by `saveCheckpoint`. -/
structure CheckpointFile where
  header : CheckpointHeader
  agents : List Agent
  regionIndex : List (List ℕ)
  regionEcon : List RegionEcon
  agentEcon : List AgentEcon

/-- Fallback records for the positional reads of the save loops. -/
def defaultRegionEcon : RegionEcon := {}

def defaultAgentEcon : AgentEcon := {}

/-- `serialization::saveCheckpoint` (Serialization.cpp:89-156): header
(generation, counts, current timestamp; `seed` is left at its default),
then every agent, the region index, `num_regions` region-economy
records and `num_agents` agent-economy records. -/
def saveCheckpoint (k : CoreKernel) (timestamp : ℕ) : CheckpointFile :=
  { header :=
      { magic := CHECKPOINT_MAGIC
        version := CHECKPOINT_VERSION
        generation := k.generation
        num_agents := k.agents.length
        num_regions := k.regionIndex.length
        seed := 0
        timestamp := timestamp }
    agents := k.agents
    regionIndex := k.regionIndex
    regionEcon := (List.range k.regionIndex.length).map
      (fun r => k.regionEcon.getD r defaultRegionEcon)
    agentEcon := (List.range k.agents.length).map
      (fun i => k.agentEcon.getD i defaultAgentEcon) }

/-- `serialization::loadCheckpoint` (Serialization.cpp:158-212): read
the header, refuse on bad magic or version (returning `false`), then
decode `num_agents` agent records and `num_regions` region-index rows
into locals — which are then dropped: the function returns `true`
without installing anything into the kernel (the economy restore is an
explicit TODO, and no agent restore is performed either). -/
def loadCheckpoint (k : CoreKernel) (f : CheckpointFile) :
    Bool × CoreKernel :=
  if f.header.magic ≠ CHECKPOINT_MAGIC then (false, k)
  else if f.header.version ≠ CHECKPOINT_VERSION then (false, k)
  else
    let _decodedAgents := f.agents.take f.header.num_agents
    let _decodedRegionIndex := f.regionIndex.take f.header.num_regions
    (true, k)

/-- Claim C7: `loadCheckpoint` refuses any file whose header magic
differs from `0x45435356` or whose version differs from `1`, returning
`false`, and on such a failed load the in-memory kernel is unchanged. -/
theorem loadCheckpoint_refuses_bad_header (k : CoreKernel)
    (f : CheckpointFile)
    (h : f.header.magic ≠ CHECKPOINT_MAGIC ∨
      f.header.version ≠ CHECKPOINT_VERSION) :
    loadCheckpoint k f = (false, k) := by
  unfold loadCheckpoint
  rcases h with h | h
  · rw [if_pos h]
  · by_cases hm : f.header.magic ≠ CHECKPOINT_MAGIC
    · rw [if_pos hm]
    · rw [if_neg hm, if_pos h]

/-- A concrete kernel for the serialization witnesses: one agent with
`primaryLang = 2`, one region. -/
def ckKernelA : CoreKernel :=
  { generation := 7
    agents := [{ defaultAgent with id := 0, primaryLang := 2 }]
    regionIndex := [[0]]
    regionEcon := [defaultRegionEcon]
    agentEcon := [defaultAgentEcon] }

/-- A second concrete kernel whose single agent differs from
`ckKernelA`'s (`primaryLang = 0`). -/
def ckKernelB : CoreKernel :=
  { generation := 0
    agents := [{ defaultAgent with id := 0, primaryLang := 0 }]
    regionIndex := [[0]]
    regionEcon := [defaultRegionEcon]
    agentEcon := [defaultAgentEcon] }

/-- A header with a wrong magic number. -/
def badMagicFile : CheckpointFile :=
  { header := { magic := 0xDEADBEEF }
    agents := []
    regionIndex := []
    regionEcon := []
    agentEcon := [] }

theorem loadCheckpoint_refuses_bad_header_witness :
    loadCheckpoint ckKernelA badMagicFile = (false, ckKernelA) :=
  loadCheckpoint_refuses_bad_header ckKernelA badMagicFile
    (Or.inl (by decide))

/-- Claim C10: `loadCheckpoint` leaves the kernel entirely unchanged
for every input file — also when it reports success: the decoded agent
records and region index are never installed. -/
theorem loadCheckpoint_never_mutates (k : CoreKernel)
    (f : CheckpointFile) : (loadCheckpoint k f).2 = k := by
  unfold loadCheckpoint
  by_cases h1 : f.header.magic ≠ CHECKPOINT_MAGIC
  · rw [if_pos h1]
  · rw [if_neg h1]
    by_cases h2 : f.header.version ≠ CHECKPOINT_VERSION
    · rw [if_pos h2]
    · rw [if_neg h2]

/-- Claim C6 (code bug): the checkpoint round trip does not restore the
saved state.  Saving `ckKernelA` (agent 0 has `primaryLang = 2`) and
loading the file into `ckKernelB` reports success yet leaves
`ckKernelB`'s agent untouched (`primaryLang = 0`), so the loaded kernel
does not equal the saved one. -/
theorem checkpoint_roundtrip_fails :
    (loadCheckpoint ckKernelB (saveCheckpoint ckKernelA 0)).1 = true ∧
      ((loadCheckpoint ckKernelB
          (saveCheckpoint ckKernelA 0)).2.agents.getD 0
        defaultAgent).primaryLang = 0 ∧
      (ckKernelA.agents.getD 0 defaultAgent).primaryLang = 2 := by
  refine ⟨rfl, rfl, rfl⟩

/-! ### Claim C8: the `run T L` command and the metrics CSV -/

/-- The CSV header written by the `run` command (main_kernel.cpp,
`metricsFile << "generation,polarization_mean,..."`). -/
def csvHeader : String :=
  "generation,polarization_mean,polarization_std,avg_openness,avg_conformity"

/-- The metrics CSV path opened by the `run` command. -/
def metricsPath : String := "data/metrics.csv"

/-- The header the spec claims (§6, ten columns). -/
def specCsvHeader : String :=
  "generation,polarization_mean,polarization_std,avg_openness,avg_conformity,welfare,inequality,hardship,trade_volume,population"

/-- The lines of the metrics CSV produced by `run T L`
(main_kernel.cpp): the file starts with the header, then the loop over
`t < T` appends one data row (`logMetrics`, from the absent
`KernelSnapshot.cpp`, abstracted as `row`) whenever `t % L == 0`. -/
def runCsvLines (row : ℕ → String) (T L : ℕ) : List String :=
  (List.range T).foldl
    (fun acc t => if t % L = 0 then acc ++ [row t] else acc)
    [csvHeader]

/-- Counterexample for claim C8: the header row the code writes has
five columns, not the ten the claim lists. -/
theorem csv_header_five_columns_not_ten : csvHeader ≠ specCsvHeader := by
  decide

theorem runCsv_aux (row : ℕ → String) (L : ℕ) :
    ∀ (T : ℕ) (acc : List String),
      (List.range T).foldl
          (fun acc t => if t % L = 0 then acc ++ [row t] else acc) acc =
        acc ++ ((List.range T).filter (fun t => t % L = 0)).map row := by
  intro T
  induction T with
  | zero => intro acc; simp
  | succ T ih =>
    intro acc
    rw [List.range_succ, List.foldl_append, ih, List.filter_append,
      List.map_append]
    by_cases hT : T % L = 0
    · simp [hT, List.filter_cons, List.append_assoc]
    · simp [hT, List.filter_cons]

theorem count_multiples (L : ℕ) (hL : 0 < L) :
    ∀ T : ℕ,
      ((List.range T).filter (fun t => t % L = 0)).length =
        (T + L - 1) / L := by
  intro T
  induction T with
  | zero =>
    simp
    exact (Nat.div_eq_of_lt (by omega)).symm
  | succ T ih =>
    rw [List.range_succ, List.filter_append, List.length_append, ih]
    have hTL : T + 1 + L - 1 = (T + L - 1) + 1 := by omega
    rw [hTL, Nat.succ_div]
    have hdvd : (L ∣ T + L - 1 + 1) ↔ (L ∣ T) := by
      have : T + L - 1 + 1 = T + L := by omega
      rw [this]
      exact Nat.dvd_add_self_right
    by_cases hT : T % L = 0
    · have : L ∣ T := Nat.dvd_of_mod_eq_zero hT
      rw [if_pos (hdvd.mpr this)]
      simp [hT]
    · have hnd : ¬ L ∣ T := by
        rw [Nat.dvd_iff_mod_eq_zero]
        exact hT
      rw [if_neg (fun hd => hnd (hdvd.mp hd))]
      simp [hT]

/-- Claim C8 as amended: for every `T` and every `L > 0`, the `run T L`
command writes the metrics CSV at the default path `data/metrics.csv`;
its first row is the fixed five-column header `generation,
polarization_mean, polarization_std, avg_openness, avg_conformity`,
followed by one data row for each tick index `t < T` with
`t % L = 0` — that is, `⌈T/L⌉` rows, one every `L` ticks. -/
theorem run_command_csv_shape (row : ℕ → String) (T L : ℕ)
    (hL : 0 < L) :
    (runCsvLines row T L).headI = csvHeader ∧
      (runCsvLines row T L).length = 1 + (T + L - 1) / L ∧
      metricsPath = "data/metrics.csv" := by
  unfold runCsvLines
  rw [runCsv_aux]
  refine ⟨rfl, ?_, rfl⟩
  rw [List.length_append, List.length_map, count_multiples L hL]
  simp

theorem run_command_csv_shape_witness :
    (runCsvLines (fun _ => "") 5 2).headI = csvHeader ∧
      (runCsvLines (fun _ => "") 5 2).length = 1 + (5 + 2 - 1) / 2 ∧
      metricsPath = "data/metrics.csv" :=
  run_command_csv_shape (fun _ => "") 5 2 (by decide)

/-! ### Claim C9: construction performs no configuration validation -/

/-- A nonsensical configuration: zero population, one region. -/
noncomputable def zeroPopCfg : KernelConfig :=
  { population := 0, regions := 1, avgConnections := 8,
    rewireProb := 0.05, stepSize := 0.15, simFloor := 0.05, seed := 42 }

/-- A nonsensical configuration: zero population, three regions. -/
noncomputable def zeroPopCfg3 : KernelConfig :=
  { population := 0, regions := 3, avgConnections := 8,
    rewireProb := 0.05, stepSize := 0.15, simFloor := 0.05, seed := 1 }

/-- Counterexample for claim C9: constructing a kernel with
`population = 0` does not fail with a typed error — `Kernel::reset`
validates nothing and simply builds the empty simulation (agent table
empty, one region bucket, generation 0). -/
theorem zero_population_constructs_empty_kernel :
    (mkKernel zeroPopCfg trivialDraws).agents = [] ∧
      (mkKernel zeroPopCfg trivialDraws).regionIndex.length = 1 ∧
      (mkKernel zeroPopCfg trivialDraws).generation = 0 := by
  refine ⟨?_, ?_, rfl⟩
  · unfold mkKernel initAgents zeroPopCfg
    simp
  · unfold mkKernel regionIndexOf zeroPopCfg
    simp

/-- Claim C9 as amended: `Kernel::Kernel` / `Kernel::reset` performs no
configuration validation and surfaces no typed error; with
`population = 0` it succeeds and builds an empty simulation — no
agents, `cfg.regions` region buckets, generation 0. -/
theorem reset_no_validation_population_zero (cfg : KernelConfig)
    (g : Draws) (hpop : cfg.population = 0) :
    (mkKernel cfg g).agents = [] ∧
      (mkKernel cfg g).regionIndex.length = cfg.regions ∧
      (mkKernel cfg g).generation = 0 := by
  refine ⟨?_, ?_, rfl⟩
  · unfold mkKernel initAgents
    rw [hpop]
    simp
  · unfold mkKernel regionIndexOf
    simp

theorem reset_no_validation_population_zero_witness :
    (mkKernel zeroPopCfg3 trivialDraws).agents = [] ∧
      (mkKernel zeroPopCfg3 trivialDraws).regionIndex.length =
        zeroPopCfg3.regions ∧
      (mkKernel zeroPopCfg3 trivialDraws).generation = 0 :=
  reset_no_validation_population_zero zeroPopCfg3 trivialDraws rfl

end CivSim
